import Mathlib

/-!
Verification of the solar-rs rendering core and updater.

The definitions below are a shallow embedding of the Rust sources
(`src/ui.rs`, `src/types.rs`, `src/horizons.rs`, `src/main.rs`).
`f64` values are modelled as exact rationals (`ℚ`); the transcendental
trigonometry inside `draw_ring` is modelled over `ℝ` with `Real.cos`,
`Real.sin` and `Real.pi`.  `f64::round` (round half away from zero) is
modelled by `rround`.  Machine-integer saturation does not occur on the
inputs the claims quantify over and is not modelled.
-/

namespace Solar

/-- The subset of `ratatui::style::Color` used by the program (`types.rs`). -/
inductive Color where
  | Yellow
  | LightMagenta
  | LightYellow
  | LightBlue
  | Red
  | LightRed
  | Cyan
  | Blue
  | DarkGray
  deriving DecidableEq, Repr

/-- `struct Pixel { ch, color, priority }` from `ui.rs`.  `priority : u8`
is modelled as `ℕ`; the program only uses 1, 10 and 20 and never does
arithmetic on priorities, so no wraparound can occur. -/
structure Pixel where
  ch : Char
  color : Color
  priority : ℕ
  deriving DecidableEq, Repr

/-- The grid `Vec<Vec<Option<Pixel>>>` from `ui.rs`. -/
abbrev Grid := List (List (Option Pixel))

/-- `struct Vec3 { x, y, z : f64 }` from `types.rs`, over `ℚ`. -/
structure Vec3 where
  x : ℚ
  y : ℚ
  z : ℚ
  deriving DecidableEq, Repr

/-- `struct BodyMeta` from `types.rs`. -/
structure BodyMeta where
  name : String
  id : String
  nf_icon : Char
  uni_icon : Char
  color : Color
  orbit_au : Option ℚ
  deriving DecidableEq, Repr

/-- `struct BodyState` from `types.rs`. -/
structure BodyState where
  name : String
  id : String
  pos_au : Option Vec3
  deriving DecidableEq, Repr

/-- `struct AppState` from `types.rs` (zoom : f64 as `ℚ`). -/
structure AppState where
  bodies : List BodyState
  last_update_utc : Option String
  status : String
  use_unicode_icons : Bool
  zoom : ℚ
  focus_index : ℕ
  deriving DecidableEq, Repr

/-- The `BODIES` constant table from `types.rs`.  The planet glyphs are
the private-use characters U+F111 (U+F185 for the Sun's nf icon) as in
the source. -/
def BODIES : List BodyMeta :=
  [ ⟨"Sun",     "10",  '', '', Color.Yellow,       none⟩,
    ⟨"Mercury", "199", '', '', Color.LightMagenta, some (387098/1000000)⟩,
    ⟨"Venus",   "299", '', '', Color.LightYellow,  some (723332/1000000)⟩,
    ⟨"Earth",   "399", '', '', Color.LightBlue,    some 1⟩,
    ⟨"Mars",    "499", '', '', Color.Red,          some (1523679/1000000)⟩,
    ⟨"Jupiter", "599", '', '', Color.LightRed,     some (52038/10000)⟩,
    ⟨"Saturn",  "699", '', '', Color.LightYellow,  some (953707/100000)⟩,
    ⟨"Uranus",  "799", '', '', Color.Cyan,         some (1919126/100000)⟩,
    ⟨"Neptune", "899", '', '', Color.Blue,         some (3006896/100000)⟩ ]

/-- The `FOCUS_LEVELS` constant table from `types.rs`. -/
def FOCUS_LEVELS : List (String × ℚ) :=
  [ ("Earth",   1),
    ("Mars",    1523679/1000000),
    ("Jupiter", 52038/10000),
    ("Saturn",  953707/100000),
    ("Uranus",  1919126/100000),
    ("Neptune", 3006896/100000) ]

/-- `meta_by_name` from `types.rs`. -/
def meta_by_name (name : String) : Option BodyMeta :=
  BODIES.find? (fun m => m.name == name)

/-- `icon_for` from `types.rs`. -/
def icon_for (meta : BodyMeta) (use_unicode : Bool) : Char :=
  if use_unicode then meta.uni_icon else meta.nf_icon

/-- `f64::round`: round to nearest, halves away from zero. -/
def rround {K : Type*} [LinearOrderedField K] [FloorRing K] (q : K) : ℤ :=
  if 0 ≤ q then ⌊q + 1/2⌋ else -⌊-q + 1/2⌋

/-- `put_pixel` from `ui.rs`: bounds-checked, priority-compositing write.
Note the width check compares `x` against the length of row 0 only,
exactly as `grid[0].len()` does in the source. -/
def put_pixel (grid : Grid) (x y : ℤ) (p : Pixel) : Grid :=
  if x < 0 ∨ y < 0 then grid
  else
    let yu := y.toNat
    let xu := x.toNat
    if grid.length ≤ yu ∨ (grid.headD []).length ≤ xu then grid
    else
      let row := grid.getD yu []
      match row.getD xu none with
      | none => grid.set yu (row.set xu (some p))
      | some existing =>
          if existing.priority < p.priority then grid.set yu (row.set xu (some p))
          else grid

/-- Read a cell of the grid; negative coordinates read as empty. -/
def cellAt (grid : Grid) (x y : ℤ) : Option Pixel :=
  if x < 0 ∨ y < 0 then none
  else (grid.getD y.toNat []).getD x.toNat none

/-- The effect of one `put_pixel` call on the occupant of its target cell. -/
def combine (cur : Option Pixel) (p : Pixel) : Option Pixel :=
  match cur with
  | none => some p
  | some existing => if existing.priority < p.priority then some p else some existing

/-- A sequence of `put_pixel` writes to one cell. -/
def writeSeq (grid : Grid) (x y : ℤ) (ps : List Pixel) : Grid :=
  ps.foldl (fun g p => put_pixel g x y p) grid

/-- The grid is rectangular: `h` rows, each of length `w`. -/
def rect (grid : Grid) (w h : ℕ) : Prop :=
  grid.length = h ∧ ∀ row ∈ grid, row.length = w

/-- The pixel the ring rasterizer writes (`ui.rs`, `draw_ring`):
a dim dot glyph at priority 1. -/
def ringPixel : Pixel := ⟨'·', Color.DarkGray, 1⟩

/-- `draw_ring` from `ui.rs`.  `steps = (r_pix * 6.0).clamp(64.0, 720.0) as i32`
is `⌊min (max (r_pix * 6) 64) 720⌋` (the clamped value is positive, so the
`as i32` truncation is a floor); `TAU` is `2 * π`. -/
noncomputable def draw_ring (grid : Grid) (cx cy : ℤ) (r_pix : ℝ) : Grid :=
  if r_pix < 1 then grid
  else
    let steps : ℤ := ⌊min (max (r_pix * 6) 64) 720⌋
    (List.range steps.toNat).foldl (fun g i =>
      let t : ℝ := (i : ℝ) * (2 * Real.pi) / (steps : ℝ)
      put_pixel g (cx + rround (Real.cos t * r_pix)) (cy - rround (Real.sin t * r_pix))
        ringPixel) grid

/-- `base_scale` from `render_map_block` (`ui.rs`):
`(w.min(h) as f64 * 0.45) / focus_au.max(0.1)`. -/
def base_scale (w h : ℕ) (focus_au : ℚ) : ℚ :=
  ((min w h : ℕ) : ℚ) * (45/100) / max focus_au (1/10)

/-- `scale = base_scale * state.zoom` from `render_map_block` (`ui.rs`). -/
def scaleOf (w h : ℕ) (focus_au zoom : ℚ) : ℚ :=
  base_scale w h focus_au * zoom

/-- One drawing action of `render_map_block`: either a `draw_ring` call or a
`put_pixel` call.  The ring radius (in cells) is recorded exactly as the
rational `r_au * scale` that the code passes to `draw_ring`. -/
inductive Op where
  | ring (cx cy : ℤ) (r : ℚ)
  | pix (x y : ℤ) (p : Pixel)
  deriving DecidableEq, Repr

/-- The ring the orbit loop of `render_map_block` emits for one catalog entry:
`if let Some(r_au) = m.orbit_au { if r_au <= focus_au { draw_ring(.., r_au*scale) } }`. -/
def ring_op (cx cy : ℤ) (scale focus_au : ℚ) (m : BodyMeta) : Option Op :=
  m.orbit_au.bind (fun r_au =>
    if r_au ≤ focus_au then some (Op.ring cx cy (r_au * scale)) else none)

/-- The Sun write of `render_map_block`: center cell, priority 10. -/
def sun_ops (cx cy : ℤ) (use_unicode : Bool) : List Op :=
  ((meta_by_name "Sun").map (fun sun =>
    Op.pix cx cy ⟨icon_for sun use_unicode, sun.color, 10⟩)).toList

/-- The marker write the planet loop of `render_map_block` emits for one body:
projected position `(cx + round(v.x*scale), cy - round(v.y*scale))`, priority 20;
bodies with no known position or no catalog entry are skipped. -/
def planet_op (cx cy : ℤ) (scale : ℚ) (use_unicode : Bool) (b : BodyState) : Option Op :=
  b.pos_au.bind (fun v =>
    (meta_by_name b.name).map (fun m =>
      Op.pix (cx + rround (v.x * scale)) (cy - rround (v.y * scale))
        ⟨icon_for m use_unicode, m.color, 20⟩))

/-- The full sequence of drawing actions of `render_map_block` (`ui.rs`),
in source order: orbit rings over `BODIES`, then the Sun, then the planet
markers over `state.bodies`. -/
def renderOps (w h : ℕ) (st : AppState) : List Op :=
  let cx : ℤ := (w / 2 : ℕ)
  let cy : ℤ := (h / 2 : ℕ)
  let focus_au := (FOCUS_LEVELS.getD st.focus_index ("", 0)).2
  let scale := scaleOf w h focus_au st.zoom
  BODIES.filterMap (ring_op cx cy scale focus_au)
    ++ sun_ops cx cy st.use_unicode_icons
    ++ st.bodies.filterMap (planet_op cx cy scale st.use_unicode_icons)

/-- Apply one drawing action to the grid. -/
noncomputable def applyOp (g : Grid) : Op → Grid
  | Op.ring cx cy r => draw_ring g cx cy (r : ℝ)
  | Op.pix x y p => put_pixel g x y p

/-- The fresh grid `vec![vec![None; w]; h]` of `render_map_block`. -/
def emptyGrid (w h : ℕ) : Grid :=
  List.replicate h (List.replicate w none)

/-- The grid produced by `render_map_block` (`ui.rs`) after all drawing,
before serialization to styled spans. -/
noncomputable def render_grid (w h : ℕ) (st : AppState) : Grid :=
  (renderOps w h st).foldl applyOp (emptyGrid w h)

/-- One raw `put_pixel` call: target coordinates and pixel. -/
structure W where
  x : ℤ
  y : ℤ
  p : Pixel

/-- Apply one raw write. -/
def applyW (g : Grid) (wr : W) : Grid := put_pixel g wr.x wr.y wr.p

/-- The raw `put_pixel` calls a drawing action performs, in order. -/
noncomputable def opWrites : Op → List W
  | Op.ring cx cy r =>
      if (r : ℝ) < 1 then []
      else
        let steps : ℤ := ⌊min (max ((r : ℝ) * 6) 64) 720⌋
        (List.range steps.toNat).map (fun i =>
          let t : ℝ := (i : ℝ) * (2 * Real.pi) / (steps : ℝ)
          ⟨cx + rround (Real.cos t * (r : ℝ)), cy - rround (Real.sin t * (r : ℝ)), ringPixel⟩)
  | Op.pix x y p => [⟨x, y, p⟩]

/-- All raw `put_pixel` calls of one frame, in order. -/
noncomputable def renderWrites (w h : ℕ) (st : AppState) : List W :=
  (renderOps w h st).flatMap opWrites

/-- The pixels written to cell `(x, y)` during one frame, in write order. -/
noncomputable def pixelsAt (w h : ℕ) (st : AppState) (x y : ℤ) : List Pixel :=
  ((renderWrites w h st).filter (fun wr => wr.x = x ∧ wr.y = y)).map W.p

/-- `clamp_zoom` from `main.rs`: `z.clamp(0.2, 50.0)`. -/
def clamp_zoom (z : ℚ) : ℚ := min (max z (1/5)) 50

/-- The initial `AppState` built in `main` (`main.rs`): every body starts
with no known position (`pos_au: None`), zoom 1, focus index `len - 1`. -/
def initState (use_unicode : Bool) : AppState :=
  { bodies := BODIES.map (fun m => ⟨m.name, m.id, none⟩),
    last_update_utc := none,
    status := "Starting…",
    use_unicode_icons := use_unicode,
    zoom := 1,
    focus_index := FOCUS_LEVELS.length - 1 }

/-- The `(name, id)` snapshot one updater cycle takes (`horizons.rs`):
all bodies except the Sun (`id != "10"`). -/
def bodies_snapshot (s : AppState) : List (String × String) :=
  (s.bodies.filter (fun b => b.id ≠ "10")).map (fun b => (b.name, b.id))

/-- The fetch loop of one updater cycle (`horizons.rs`).  `fetch id` is the
outcome of `fetch_body_vec` for that body id (`none` = failure), `err id`
the failure's rendered message.  Returns the `new_positions` map (as a
function, last insert wins, matching `BTreeMap::insert`) and the final
status string: `"OK"` unless a fetch failed, in which case the message of
the last failure.  `cycle_step` is one iteration of that loop. -/
def cycle_step (fetch : String → Option Vec3) (err : String → String)
    (acc : (String → Option Vec3) × String) (nid : String × String) :
    (String → Option Vec3) × String :=
  match fetch nid.2 with
  | some v => ((fun n => if n = nid.1 then some v else acc.1 n), acc.2)
  | none => (acc.1, "Fetch error (" ++ nid.1 ++ "): " ++ err nid.2)

def cycle_results (fetch : String → Option Vec3) (err : String → String)
    (snapshot : List (String × String)) : (String → Option Vec3) × String :=
  snapshot.foldl (cycle_step fetch err) ((fun _ => none), "OK")

/-- The per-body state update at the end of a cycle (`horizons.rs`):
the Sun is pinned to the origin; every other body takes its newly fetched
position if one exists, else keeps its previous one. -/
def cycle_body (new_positions : String → Option Vec3) (b : BodyState) : BodyState :=
  if b.id = "10" then { b with pos_au := some ⟨0, 0, 0⟩ }
  else { b with pos_au := match new_positions b.name with
                          | some v => some v
                          | none => b.pos_au }

/-- One full updater cycle (`horizons.rs`, body of the `loop`): snapshot the
non-Sun bodies, fetch each, then apply positions, timestamp and status. -/
def updaterCycle (fetch : String → Option Vec3) (err : String → String)
    (now : String) (s : AppState) : AppState :=
  let res := cycle_results fetch err (bodies_snapshot s)
  { s with
    bodies := s.bodies.map (cycle_body res.1),
    last_update_utc := some now,
    status := res.2 }

/-- The reachable application states: the initial state, updater cycles with
arbitrary fetch outcomes, and the key-event mutations of the input loop
(`main.rs`): zoom in `*1.25`, zoom out `/1.25`, reset, focus step down/up. -/
inductive Reachable (use_unicode : Bool) : AppState → Prop where
  | init : Reachable use_unicode (initState use_unicode)
  | update {s} (fetch : String → Option Vec3) (err : String → String) (now : String) :
      Reachable use_unicode s → Reachable use_unicode (updaterCycle fetch err now s)
  | zoomIn {s} : Reachable use_unicode s →
      Reachable use_unicode { s with zoom := clamp_zoom (s.zoom * (5/4)) }
  | zoomOut {s} : Reachable use_unicode s →
      Reachable use_unicode { s with zoom := clamp_zoom (s.zoom / (5/4)) }
  | reset {s} : Reachable use_unicode s →
      Reachable use_unicode { s with zoom := 1, focus_index := FOCUS_LEVELS.length - 1 }
  | focusIn {s} : Reachable use_unicode s →
      Reachable use_unicode { s with focus_index :=
        if 0 < s.focus_index then s.focus_index - 1 else s.focus_index }
  | focusOut {s} : Reachable use_unicode s →
      Reachable use_unicode { s with focus_index :=
        if s.focus_index + 1 < FOCUS_LEVELS.length then s.focus_index + 1 else s.focus_index }

/-! ### put_pixel helper lemmas -/

lemma rect_headD_length {g : Grid} {w h : ℕ} (hr : rect g w h) (hg : g ≠ []) :
    (g.headD []).length = w := by
  rcases g with _ | ⟨r, rs⟩
  · exact absurd rfl hg
  · exact hr.2 r (List.mem_cons_self r rs)

lemma set_getD_self (l : List (Option Pixel)) (i : ℕ) (hi : i < l.length) :
    l.set i (l.getD i none) = l := by
  apply List.ext_getElem?
  intro n
  by_cases hn : n = i
  · subst hn
    rw [List.getElem?_set_self hi, List.getD_eq_getElem?_getD,
      List.getElem?_eq_getElem hi]
    rfl
  · rw [List.getElem?_set_ne (fun hc => hn hc.symm)]

lemma grid_set_getD_self (g : Grid) (i : ℕ) (hi : i < g.length) :
    g.set i (g.getD i []) = g := by
  apply List.ext_getElem?
  intro n
  by_cases hn : n = i
  · subst hn
    rw [List.getElem?_set_self hi, List.getD_eq_getElem?_getD,
      List.getElem?_eq_getElem hi]
    rfl
  · rw [List.getElem?_set_ne (fun hc => hn hc.symm)]

/-- `put_pixel` either leaves the grid unchanged because a bounds check
failed, or (in bounds) replaces the target cell by `combine cell p`. -/
lemma put_pixel_spec (g : Grid) (x y : ℤ) (p : Pixel) :
    (put_pixel g x y p = g ∧
      ¬ (0 ≤ x ∧ 0 ≤ y ∧ y.toNat < g.length ∧ x.toNat < (g.headD []).length)) ∨
    (0 ≤ x ∧ 0 ≤ y ∧ y.toNat < g.length ∧ x.toNat < (g.headD []).length ∧
      put_pixel g x y p =
        g.set y.toNat ((g.getD y.toNat []).set x.toNat
          (combine ((g.getD y.toNat []).getD x.toNat none) p))) := by
  by_cases hneg : x < 0 ∨ y < 0
  · left
    constructor
    · simp only [put_pixel, if_pos hneg]
    · omega
  · by_cases hguard : g.length ≤ y.toNat ∨ (g.headD []).length ≤ x.toNat
    · left
      constructor
      · simp only [put_pixel, if_neg hneg, if_pos hguard]
      · omega
    · right
      push_neg at hneg hguard
      refine ⟨hneg.1, hneg.2, hguard.1, hguard.2, ?_⟩
      simp only [put_pixel, if_neg (by omega : ¬ (x < 0 ∨ y < 0)),
        if_neg (by omega : ¬ (g.length ≤ y.toNat ∨ (g.headD []).length ≤ x.toNat))]
      rcases hcell : (g.getD y.toNat []).getD x.toNat none with _ | q
      · simp only [combine]
      · have hxrow : x.toNat < (g.getD y.toNat []).length := by
          by_contra hge
          rw [List.getD_eq_getElem?_getD, List.getElem?_eq_none (by omega)] at hcell
          exact Option.noConfusion hcell
        by_cases hq : q.priority < p.priority
        · simp only [combine, if_pos hq]
        · simp only [combine, if_neg hq]
          rw [show some q = (g.getD y.toNat []).getD x.toNat none from hcell.symm,
            set_getD_self _ _ hxrow, grid_set_getD_self _ _ hguard.1]

/-- Reading any cell of a grid after `List.set` of one row. -/
lemma cellAt_set (g : Grid) (row' : List (Option Pixel)) (yu : ℕ) (a b : ℤ) :
    cellAt (g.set yu row') a b =
      if 0 ≤ a ∧ 0 ≤ b ∧ b.toNat = yu ∧ yu < g.length
      then row'.getD a.toNat none else cellAt g a b := by
  by_cases habneg : a < 0 ∨ b < 0
  · simp only [cellAt, if_pos habneg, if_neg (by omega :
      ¬ (0 ≤ a ∧ 0 ≤ b ∧ b.toNat = yu ∧ yu < g.length))]
  · by_cases hby : b.toNat = yu ∧ yu < g.length
    · simp only [cellAt, if_neg habneg,
        if_pos (by omega : 0 ≤ a ∧ 0 ≤ b ∧ b.toNat = yu ∧ yu < g.length),
        List.getD_eq_getElem?_getD]
      rw [hby.1, List.getElem?_set_self hby.2]
      rfl
    · simp only [cellAt, if_neg habneg, if_neg (by omega :
        ¬ (0 ≤ a ∧ 0 ≤ b ∧ b.toNat = yu ∧ yu < g.length)),
        List.getD_eq_getElem?_getD]
      by_cases hb' : b.toNat = yu
      · have hlen : g.length ≤ yu := by omega
        have h1 : (List.set g yu row')[b.toNat]? = (none : Option (List (Option Pixel))) := by
          rw [hb']
          exact List.getElem?_eq_none (by rw [List.length_set]; omega)
        have h2 : g[b.toNat]? = (none : Option (List (Option Pixel))) := by
          rw [hb']
          exact List.getElem?_eq_none hlen
        rw [h1, h2]
      · rw [List.getElem?_set_ne (fun hc => hb' hc.symm)]

lemma put_pixel_oob {g : Grid} {w h : ℕ} (hr : rect g w h) (x y : ℤ) (p : Pixel)
    (hout : x < 0 ∨ y < 0 ∨ (w : ℤ) ≤ x ∨ (h : ℤ) ≤ y) :
    put_pixel g x y p = g := by
  rcases put_pixel_spec g x y p with ⟨heq, _⟩ | ⟨hx0, hy0, hyl, hxl, _⟩
  · exact heq
  · exfalso
    have hg : g ≠ [] := by
      intro hnil
      rw [hnil] at hyl
      simp at hyl
    rw [hr.1] at hyl
    rw [rect_headD_length hr hg] at hxl
    omega

lemma rect_rowlen {g : Grid} {w h : ℕ} (hr : rect g w h) {yu : ℕ} (hy : yu < g.length) :
    (g.getD yu []).length = w := by
  rw [List.getD_eq_getElem?_getD, List.getElem?_eq_getElem hy]
  exact hr.2 _ (List.getElem_mem hy)

lemma cellAt_put_pixel_self {g : Grid} {w h : ℕ} (hr : rect g w h) {x y : ℤ}
    (hx0 : 0 ≤ x) (hxw : x < (w : ℤ)) (hy0 : 0 ≤ y) (hyh : y < (h : ℤ)) (p : Pixel) :
    cellAt (put_pixel g x y p) x y = combine (cellAt g x y) p := by
  have hg : g ≠ [] := by
    intro hnil
    rw [hnil] at hr
    simp only [rect, List.length_nil] at hr
    omega
  have hyl : y.toNat < g.length := by rw [hr.1]; omega
  have hxl : x.toNat < (g.headD []).length := by rw [rect_headD_length hr hg]; omega
  rcases put_pixel_spec g x y p with ⟨_, hnob⟩ | ⟨_, _, _, _, heq⟩
  · exact absurd ⟨hx0, hy0, hyl, hxl⟩ hnob
  · rw [heq, cellAt_set,
      if_pos (⟨hx0, hy0, rfl, hyl⟩ : 0 ≤ x ∧ 0 ≤ y ∧ y.toNat = y.toNat ∧ y.toNat < g.length)]
    have hxrow : x.toNat < (g.getD y.toNat []).length := by
      rw [rect_rowlen hr hyl]; omega
    rw [List.getD_eq_getElem?_getD, List.getElem?_set_self hxrow, Option.getD_some]
    simp only [cellAt, if_neg (by omega : ¬ (x < 0 ∨ y < 0))]

lemma cellAt_put_pixel_ne (g : Grid) (x y : ℤ) (p : Pixel) (a b : ℤ)
    (hne : ¬ (a = x ∧ b = y)) :
    cellAt (put_pixel g x y p) a b = cellAt g a b := by
  rcases put_pixel_spec g x y p with ⟨heq, _⟩ | ⟨hx0, hy0, hyl, _, heq⟩
  · rw [heq]
  · rw [heq, cellAt_set]
    by_cases hc : 0 ≤ a ∧ 0 ≤ b ∧ b.toNat = y.toNat ∧ y.toNat < g.length
    · rw [if_pos hc]
      have hb : b = y := by omega
      have ha : a ≠ x := fun hax => hne ⟨hax, hb⟩
      have han : a.toNat ≠ x.toNat := by omega
      rw [List.getD_eq_getElem?_getD, List.getElem?_set_ne (fun hcc => han hcc.symm),
        ← List.getD_eq_getElem?_getD]
      simp only [cellAt, if_neg (by omega : ¬ (a < 0 ∨ b < 0)), hc.2.2.1]
    · rw [if_neg hc]

lemma rect_put_pixel {g : Grid} {w h : ℕ} (hr : rect g w h) (x y : ℤ) (p : Pixel) :
    rect (put_pixel g x y p) w h := by
  rcases put_pixel_spec g x y p with ⟨heq, _⟩ | ⟨_, _, hyl, _, heq⟩
  · rw [heq]; exact hr
  · rw [heq]
    constructor
    · rw [List.length_set, hr.1]
    · intro row hrow
      rcases List.mem_or_eq_of_mem_set hrow with hmem | rfl
      · exact hr.2 row hmem
      · rw [List.length_set]
        exact rect_rowlen hr hyl

lemma cellAt_writeSeq {g : Grid} {w h : ℕ} (hr : rect g w h) {x y : ℤ}
    (hx0 : 0 ≤ x) (hxw : x < (w : ℤ)) (hy0 : 0 ≤ y) (hyh : y < (h : ℤ))
    (ps : List Pixel) :
    cellAt (writeSeq g x y ps) x y = ps.foldl combine (cellAt g x y) := by
  induction ps generalizing g with
  | nil => rfl
  | cons p ps ih =>
    simp only [writeSeq, List.foldl_cons]
    rw [show List.foldl (fun g p => put_pixel g x y p) (put_pixel g x y p) ps =
        writeSeq (put_pixel g x y p) x y ps from rfl,
      ih (rect_put_pixel hr x y p),
      cellAt_put_pixel_self hr hx0 hxw hy0 hyh p]

/-! ### The compositing fold keeps the earliest maximum-priority pixel -/

/-- `m` is the earliest pixel of maximal priority in `ps`: it occurs at some
index `i`, nothing in `ps` has higher priority, and everything strictly
before index `i` has strictly lower priority. -/
def IsFirstMax (ps : List Pixel) (m : Pixel) : Prop :=
  ∃ i : ℕ, ps[i]? = some m ∧ (∀ q ∈ ps, q.priority ≤ m.priority) ∧
    ∀ j : ℕ, j < i → ∀ q : Pixel, ps[j]? = some q → q.priority < m.priority

lemma combine_some (a p : Pixel) :
    combine (some a) p = some (if a.priority < p.priority then p else a) := by
  simp only [combine]
  by_cases hap : a.priority < p.priority
  · rw [if_pos hap, if_pos hap]
  · rw [if_neg hap, if_neg hap]

lemma foldl_combine_some (ps : List Pixel) : ∀ a : Pixel,
    ∃ m, List.foldl combine (some a) ps = some m ∧ IsFirstMax (a :: ps) m := by
  induction ps with
  | nil =>
    intro a
    refine ⟨a, rfl, 0, rfl, ?_, ?_⟩
    · intro q hq
      rcases List.mem_singleton.mp hq with rfl
      exact le_refl _
    · intro j hj
      omega
  | cons p ps ih =>
    intro a
    have hstep : List.foldl combine (some a) (p :: ps) =
        List.foldl combine (some (if a.priority < p.priority then p else a)) ps := by
      rw [List.foldl_cons, combine_some]
    by_cases hap : a.priority < p.priority
    · obtain ⟨m, hm, i, hidx, hmax, hbefore⟩ := ih p
      refine ⟨m, ?_, i + 1, ?_, ?_, ?_⟩
      · rw [hstep, if_pos hap]; exact hm
      · rw [List.getElem?_cons_succ]; exact hidx
      · intro q hq
        rcases List.mem_cons.mp hq with rfl | hq
        · exact le_trans (le_of_lt hap) (hmax p (List.mem_cons_self p ps))
        · exact hmax q hq
      · intro j hj q hq
        cases j with
        | zero =>
          rw [List.getElem?_cons_zero] at hq
          rcases Option.some_inj.mp hq with rfl
          exact lt_of_lt_of_le hap (hmax p (List.mem_cons_self p ps))
        | succ k =>
          rw [List.getElem?_cons_succ] at hq
          exact hbefore k (by omega) q hq
    · obtain ⟨m, hm, i, hidx, hmax, hbefore⟩ := ih a
      have hres : List.foldl combine (some a) (p :: ps) = some m := by
        rw [hstep, if_neg hap]; exact hm
      cases i with
      | zero =>
        rw [List.getElem?_cons_zero] at hidx
        rcases Option.some_inj.mp hidx with rfl
        refine ⟨a, hres, 0, List.getElem?_cons_zero, ?_, ?_⟩
        · intro q hq
          rcases List.mem_cons.mp hq with rfl | hq
          · exact le_refl _
          rcases List.mem_cons.mp hq with rfl | hq
          · exact not_lt.mp hap
          · exact hmax q (List.mem_cons_of_mem _ hq)
        · intro j hj
          omega
      | succ k =>
        rw [List.getElem?_cons_succ] at hidx
        refine ⟨m, hres, k + 2, ?_, ?_, ?_⟩
        · rw [List.getElem?_cons_succ, List.getElem?_cons_succ]; exact hidx
        · intro q hq
          rcases List.mem_cons.mp hq with rfl | hq
          · exact hmax q (List.mem_cons_self q ps)
          rcases List.mem_cons.mp hq with rfl | hq
          · exact le_trans (not_lt.mp hap) (hmax a (List.mem_cons_self a ps))
          · exact hmax q (List.mem_cons_of_mem _ hq)
        · intro j hj q hq
          cases j with
          | zero =>
            rw [List.getElem?_cons_zero] at hq
            rcases Option.some_inj.mp hq with rfl
            exact hbefore 0 (by omega) a List.getElem?_cons_zero
          | succ l =>
            rw [List.getElem?_cons_succ] at hq
            cases l with
            | zero =>
              rw [List.getElem?_cons_zero] at hq
              rcases Option.some_inj.mp hq with rfl
              exact lt_of_le_of_lt (not_lt.mp hap)
                (hbefore 0 (by omega) a List.getElem?_cons_zero)
            | succ n =>
              rw [List.getElem?_cons_succ] at hq
              exact hbefore (n + 1) (by omega) q (by rw [List.getElem?_cons_succ]; exact hq)

/-- Starting from an empty cell, the compositing fold over a non-empty write
sequence ends with the earliest maximum-priority pixel. -/
lemma foldl_combine_none {ps : List Pixel} (hne : ps ≠ []) :
    ∃ m, List.foldl combine none ps = some m ∧ IsFirstMax ps m := by
  rcases ps with _ | ⟨p, ps⟩
  · exact absurd rfl hne
  · obtain ⟨m, hm, hfm⟩ := foldl_combine_some ps p
    exact ⟨m, by rw [List.foldl_cons]; exact hm, hfm⟩

/-- Any pixel written to a cell bounds the final occupant's priority below. -/
lemma foldl_combine_mem_le {ps : List Pixel} {q : Pixel} (hq : q ∈ ps) :
    ∃ m, List.foldl combine none ps = some m ∧ q.priority ≤ m.priority := by
  obtain ⟨m, hm, _, _, hmax, _⟩ := foldl_combine_none (List.ne_nil_of_mem hq)
  exact ⟨m, hm, hmax q hq⟩

/-! ### From the frame's write sequence to one cell's compositing fold -/

lemma rect_foldl_applyW {g : Grid} {w h : ℕ} (hr : rect g w h) (ws : List W) :
    rect (ws.foldl applyW g) w h := by
  induction ws generalizing g with
  | nil => exact hr
  | cons wr ws ih =>
    rw [List.foldl_cons]
    exact ih (rect_put_pixel hr wr.x wr.y wr.p)

/-- The occupant of an in-bounds cell after a sequence of raw writes is the
compositing fold of exactly the pixels targeted at that cell, in order. -/
lemma cellAt_foldl_applyW {g : Grid} {w h : ℕ} (hr : rect g w h) {x y : ℤ}
    (hx0 : 0 ≤ x) (hxw : x < (w : ℤ)) (hy0 : 0 ≤ y) (hyh : y < (h : ℤ))
    (ws : List W) :
    cellAt (ws.foldl applyW g) x y =
      ((ws.filter (fun wr => wr.x = x ∧ wr.y = y)).map W.p).foldl combine (cellAt g x y) := by
  induction ws generalizing g with
  | nil => rfl
  | cons wr ws ih =>
    rw [List.foldl_cons, List.filter_cons]
    by_cases htgt : wr.x = x ∧ wr.y = y
    · rw [if_pos (by simpa using htgt), List.map_cons, List.foldl_cons,
        show applyW g wr = put_pixel g wr.x wr.y wr.p from rfl,
        ih (rect_put_pixel hr wr.x wr.y wr.p), htgt.1, htgt.2,
        cellAt_put_pixel_self hr hx0 hxw hy0 hyh wr.p]
    · rw [if_neg (by simpa using htgt),
        show applyW g wr = put_pixel g wr.x wr.y wr.p from rfl,
        ih (rect_put_pixel hr wr.x wr.y wr.p),
        cellAt_put_pixel_ne g wr.x wr.y wr.p x y (fun hc => htgt ⟨hc.1.symm, hc.2.symm⟩)]

lemma applyOp_eq_foldl (g : Grid) (o : Op) :
    applyOp g o = (opWrites o).foldl applyW g := by
  cases o with
  | pix x y p => rfl
  | ring cx cy r =>
    by_cases hr : (r : ℝ) < 1
    · simp only [applyOp, draw_ring, if_pos hr, opWrites, List.foldl_nil]
    · simp only [applyOp, draw_ring, if_neg hr, opWrites, List.foldl_map, applyW]

lemma foldl_applyOp_eq (ops : List Op) : ∀ g : Grid,
    ops.foldl applyOp g = (ops.flatMap opWrites).foldl applyW g := by
  induction ops with
  | nil => intro g; rfl
  | cons o ops ih =>
    intro g
    rw [List.foldl_cons, List.flatMap_cons, List.foldl_append, ← applyOp_eq_foldl, ih]

lemma rect_emptyGrid (w h : ℕ) : rect (emptyGrid w h) w h := by
  constructor
  · exact List.length_replicate h _
  · intro row hrow
    rcases (List.mem_replicate.mp hrow).2 with rfl
    exact List.length_replicate w _

lemma cellAt_emptyGrid (w h : ℕ) (x y : ℤ) : cellAt (emptyGrid w h) x y = none := by
  by_cases hneg : x < 0 ∨ y < 0
  · simp only [cellAt, if_pos hneg]
  · simp only [cellAt, if_neg hneg, emptyGrid, List.getD_eq_getElem?_getD,
      List.getElem?_replicate]
    by_cases hy : y.toNat < h
    · rw [if_pos hy]
      simp only [Option.getD_some, List.getElem?_replicate]
      by_cases hx : x.toNat < w
      · rw [if_pos hx]; rfl
      · rw [if_neg hx]; rfl
    · rw [if_neg hy]; rfl

/-- The occupant of an in-bounds cell of the rendered frame is the
compositing fold of the frame's writes targeted at that cell. -/
lemma cellAt_render_grid (w h : ℕ) (st : AppState) {x y : ℤ}
    (hx0 : 0 ≤ x) (hxw : x < (w : ℤ)) (hy0 : 0 ≤ y) (hyh : y < (h : ℤ)) :
    cellAt (render_grid w h st) x y =
      (pixelsAt w h st x y).foldl combine none := by
  rw [render_grid, foldl_applyOp_eq, ← renderWrites,
    cellAt_foldl_applyW (rect_emptyGrid w h) hx0 hxw hy0 hyh,
    cellAt_emptyGrid, pixelsAt]

/-! ### Arithmetic helpers for the projection claims -/

lemma rround_intCast (n : ℤ) : rround ((n : ℚ)) = n := by
  have hhalf : ⌊(1 : ℚ)/2⌋ = 0 := by
    rw [Int.floor_eq_zero_iff]
    constructor <;> norm_num
  by_cases hn : (0 : ℚ) ≤ (n : ℚ)
  · rw [rround, if_pos hn, add_comm, Int.floor_add_int, hhalf, zero_add]
  · rw [rround, if_neg hn]
    have : -((n : ℚ)) = (((-n : ℤ)) : ℚ) := by push_cast; ring
    rw [this, add_comm, Int.floor_add_int, hhalf, zero_add, neg_neg]

lemma rround_zero : rround ((0 : ℚ)) = 0 := by
  simpa using rround_intCast 0

lemma focus_au_ge_one {i : ℕ} (hi : i < FOCUS_LEVELS.length) :
    1 ≤ (FOCUS_LEVELS.getD i ("", 0)).2 := by
  simp only [FOCUS_LEVELS, List.length_cons, List.length_nil] at hi
  interval_cases i <;>
    norm_num [FOCUS_LEVELS, List.getD_cons_zero, List.getD_cons_succ]

lemma base_scale_pos {w h : ℕ} (hw : 1 ≤ w) (hh : 1 ≤ h) (f : ℚ) :
    0 < base_scale w h f := by
  apply div_pos
  · apply mul_pos
    · exact_mod_cast Nat.lt_of_lt_of_le Nat.zero_lt_one (le_min hw hh)
    · norm_num
  · exact lt_max_of_lt_right (by norm_num)

/-! ### Claim theorems -/

/-- **C1.** For every grid with at least one row and column (rectangular,
`h` rows of width `w`), `put_pixel grid x y p` is a no-op when `x` or `y`
is outside `[0, dim)`; on an empty in-bounds cell it writes `p`
unconditionally; on an occupied cell it overwrites exactly when `p`'s
priority is strictly greater than the occupant's; and for any non-empty
sequence of writes to one initially empty cell, the final occupant is the
earliest maximum-priority pixel of the sequence (earliest writer wins ties). -/
theorem C1_put_pixel_compositing {g : Grid} {w h : ℕ}
    (hw : 1 ≤ w) (hh : 1 ≤ h) (hr : rect g w h) (x y : ℤ) :
    ((x < 0 ∨ y < 0 ∨ (w : ℤ) ≤ x ∨ (h : ℤ) ≤ y) → ∀ p, put_pixel g x y p = g) ∧
    (0 ≤ x → x < (w : ℤ) → 0 ≤ y → y < (h : ℤ) →
      ((cellAt g x y = none → ∀ p, cellAt (put_pixel g x y p) x y = some p) ∧
       (∀ q, cellAt g x y = some q → ∀ p,
          cellAt (put_pixel g x y p) x y =
            some (if q.priority < p.priority then p else q)) ∧
       (cellAt g x y = none → ∀ ps : List Pixel, ps ≠ [] →
          ∃ m, cellAt (writeSeq g x y ps) x y = some m ∧ IsFirstMax ps m))) := by
  refine ⟨fun hout p => put_pixel_oob hr x y p hout, fun hx0 hxw hy0 hyh => ⟨?_, ?_, ?_⟩⟩
  · intro hcell p
    rw [cellAt_put_pixel_self hr hx0 hxw hy0 hyh p, hcell]
    rfl
  · intro q hcell p
    rw [cellAt_put_pixel_self hr hx0 hxw hy0 hyh p, hcell, combine_some]
  · intro hcell ps hne
    rw [cellAt_writeSeq hr hx0 hxw hy0 hyh ps, hcell]
    exact foldl_combine_none hne

/-- Witness for C1 at a concrete 2×2 grid: both a no-op out-of-bounds write
and a two-write tie (equal priorities, first writer kept). -/
theorem C1_put_pixel_compositing_witness :
    ((1 ≤ 2 ∧ rect (emptyGrid 2 2) 2 2) ∧
      ((((3 : ℤ) < 0 ∨ (0 : ℤ) < 0 ∨ (2 : ℤ) ≤ 3 ∨ (2 : ℤ) ≤ 0) →
          ∀ p, put_pixel (emptyGrid 2 2) 3 0 p = emptyGrid 2 2) ∧
        ((0 : ℤ) ≤ 3 → (3 : ℤ) < 2 → (0 : ℤ) ≤ 0 → (0 : ℤ) < 2 →
          ((cellAt (emptyGrid 2 2) 3 0 = none →
              ∀ p, cellAt (put_pixel (emptyGrid 2 2) 3 0 p) 3 0 = some p) ∧
           (∀ q, cellAt (emptyGrid 2 2) 3 0 = some q → ∀ p,
              cellAt (put_pixel (emptyGrid 2 2) 3 0 p) 3 0 =
                some (if q.priority < p.priority then p else q)) ∧
           (cellAt (emptyGrid 2 2) 3 0 = none → ∀ ps : List Pixel, ps ≠ [] →
              ∃ m, cellAt (writeSeq (emptyGrid 2 2) 3 0 ps) 3 0 = some m ∧
                IsFirstMax ps m)))) ∧
      put_pixel (emptyGrid 2 2) 3 0 ringPixel = emptyGrid 2 2) :=
  ⟨⟨by decide, rect_emptyGrid 2 2⟩,
    C1_put_pixel_compositing (g := emptyGrid 2 2) (w := 2) (h := 2)
      (by decide) (by decide) (rect_emptyGrid 2 2) 3 0,
   (C1_put_pixel_compositing (g := emptyGrid 2 2) (w := 2) (h := 2)
      (by decide) (by decide) (rect_emptyGrid 2 2) 3 0).1 (by decide) ringPixel⟩

/-- **C10.** For a non-empty rectangular grid (as `render_map_block`
constructs), `put_pixel` is total over all integer coordinates: an
out-of-bounds write leaves the grid unchanged, every write preserves the
grid's shape, a write changes no cell other than its target, and the
width check against row 0's length is the true width under rectangularity. -/
theorem C10_put_pixel_total {g : Grid} {w h : ℕ}
    (hw : 1 ≤ w) (hh : 1 ≤ h) (hr : rect g w h) :
    (∀ x y p, (x < 0 ∨ y < 0 ∨ (h : ℤ) ≤ y ∨ (w : ℤ) ≤ x) → put_pixel g x y p = g) ∧
    (∀ x y p, rect (put_pixel g x y p) w h) ∧
    (∀ x y p a b, ¬ (a = x ∧ b = y) → cellAt (put_pixel g x y p) a b = cellAt g a b) ∧
    (g.headD []).length = w := by
  refine ⟨?_, ?_, ?_, ?_⟩
  · intro x y p hout
    apply put_pixel_oob hr x y p
    tauto
  · intro x y p
    exact rect_put_pixel hr x y p
  · intro x y p a b hne
    exact cellAt_put_pixel_ne g x y p a b hne
  · apply rect_headD_length hr
    intro hnil
    rw [hnil] at hr
    simp only [rect, List.length_nil] at hr
    omega

/-- **C3.** For every valid focus-level index, grid sizes `w, h ≥ 1` and
positive zoom, the derived scale is strictly positive, and for fixed focus
the scale is strictly increasing in the zoom factor. -/
theorem C3_scale_positive_monotone {i : ℕ} (hi : i < FOCUS_LEVELS.length)
    {w h : ℕ} (hw : 1 ≤ w) (hh : 1 ≤ h) {z : ℚ} (hz : 0 < z) :
    0 < scaleOf w h ((FOCUS_LEVELS.getD i ("", 0)).2) z ∧
    ∀ z1 z2 : ℚ, z1 < z2 →
      scaleOf w h ((FOCUS_LEVELS.getD i ("", 0)).2) z1 <
        scaleOf w h ((FOCUS_LEVELS.getD i ("", 0)).2) z2 := by
  have hb := base_scale_pos hw hh ((FOCUS_LEVELS.getD i ("", 0)).2)
  exact ⟨mul_pos hb hz, fun z1 z2 hlt => (mul_lt_mul_left hb).mpr hlt⟩

/-- Witness for C3 at focus index 0, a 10×10 grid, zoom 1. -/
theorem C3_scale_positive_monotone_witness :
    ((0 < FOCUS_LEVELS.length ∧ 1 ≤ 10 ∧ (0 : ℚ) < 1) ∧
      (0 < scaleOf 10 10 ((FOCUS_LEVELS.getD 0 ("", 0)).2) 1 ∧
        ∀ z1 z2 : ℚ, z1 < z2 →
          scaleOf 10 10 ((FOCUS_LEVELS.getD 0 ("", 0)).2) z1 <
            scaleOf 10 10 ((FOCUS_LEVELS.getD 0 ("", 0)).2) z2)) :=
  ⟨⟨by decide, by decide, by decide⟩,
    C3_scale_positive_monotone (i := 0) (w := 10) (h := 10) (z := 1)
      (by decide) (by decide) (by decide) (by decide)⟩

/-- **C2.** For every grid `w, h ≥ 1`, valid focus index, zoom and
heliocentric position, the scale is
`min(w, h) * 0.45 / max(R_focus, 0.1) * zoom`, the marker emitted for a
body at `(x, y)` is at screen cell
`(w/2 + round(x*scale), h/2 - round(y*scale))` (integer floor division for
the center, Y inverted), and the transform never clamps: with positive
zoom some AU position is mapped at or beyond the right edge of the grid. -/
theorem C2_projection_formula (w h : ℕ) (hw : 1 ≤ w) (hh : 1 ≤ h) (st : AppState)
    (hidx : st.focus_index < FOCUS_LEVELS.length) :
    ∀ f sc : ℚ, f = (FOCUS_LEVELS.getD st.focus_index ("", 0)).2 →
      sc = scaleOf w h f st.zoom →
      (sc = ((min w h : ℕ) : ℚ) * (45/100) / max f (1/10) * st.zoom) ∧
      (∀ b ∈ st.bodies, ∀ v m, b.pos_au = some v → meta_by_name b.name = some m →
        Op.pix (((w / 2 : ℕ) : ℤ) + rround (v.x * sc))
            (((h / 2 : ℕ) : ℤ) - rround (v.y * sc))
            ⟨icon_for m st.use_unicode_icons, m.color, 20⟩ ∈ renderOps w h st) ∧
      (0 < st.zoom → ∃ x : ℚ, (w : ℤ) ≤ ((w / 2 : ℕ) : ℤ) + rround (x * sc)) := by
  intro f sc hf hsc
  subst hf
  subst hsc
  refine ⟨rfl, ?_, ?_⟩
  · intro b hb v m hv hm
    simp only [renderOps]
    refine List.mem_append.mpr (Or.inr ?_)
    refine List.mem_filterMap.mpr ⟨b, hb, ?_⟩
    simp only [planet_op, hv, hm, Option.some_bind, Option.map_some']
  · intro hz
    have hsc : 0 < scaleOf w h ((FOCUS_LEVELS.getD st.focus_index ("", 0)).2) st.zoom :=
      mul_pos (base_scale_pos hw hh _) hz
    refine ⟨((w : ℚ) + 1) / scaleOf w h ((FOCUS_LEVELS.getD st.focus_index ("", 0)).2) st.zoom, ?_⟩
    rw [div_mul_cancel₀ _ (ne_of_gt hsc),
      show ((w : ℚ) + 1) = ((((w : ℤ) + 1) : ℤ) : ℚ) by push_cast; ring,
      rround_intCast]
    omega

/-- Witness for C2: a 10×10 grid, focus index 0, zoom 1, one body (Earth)
at heliocentric position (1, 0, 0). -/
theorem C2_projection_formula_witness :
    ∃ st : AppState, st.bodies = [⟨"Earth", "399", some ⟨1, 0, 0⟩⟩] ∧
      st.zoom = 1 ∧ st.focus_index = 0 ∧
      ((1 ≤ 10 ∧ st.focus_index < FOCUS_LEVELS.length) ∧
        ((scaleOf 10 10 ((FOCUS_LEVELS.getD st.focus_index ("", 0)).2) st.zoom =
            ((min 10 10 : ℕ) : ℚ) * (45/100) /
              max ((FOCUS_LEVELS.getD st.focus_index ("", 0)).2) (1/10) * st.zoom) ∧
          (∀ b ∈ st.bodies, ∀ v m, b.pos_au = some v → meta_by_name b.name = some m →
            Op.pix (((10 / 2 : ℕ) : ℤ) +
                rround (v.x * scaleOf 10 10 ((FOCUS_LEVELS.getD st.focus_index ("", 0)).2) st.zoom))
              (((10 / 2 : ℕ) : ℤ) -
                rround (v.y * scaleOf 10 10 ((FOCUS_LEVELS.getD st.focus_index ("", 0)).2) st.zoom))
              ⟨icon_for m st.use_unicode_icons, m.color, 20⟩ ∈ renderOps 10 10 st) ∧
          (0 < st.zoom → ∃ x : ℚ, ((10 : ℕ) : ℤ) ≤ ((10 / 2 : ℕ) : ℤ) +
            rround (x * scaleOf 10 10 ((FOCUS_LEVELS.getD st.focus_index ("", 0)).2) st.zoom)))) :=
  ⟨⟨[⟨"Earth", "399", some ⟨1, 0, 0⟩⟩], none, "", false, 1, 0⟩, rfl, rfl, rfl,
    ⟨by decide, by decide⟩,
    C2_projection_formula 10 10 (by decide) (by decide)
      ⟨[⟨"Earth", "399", some ⟨1, 0, 0⟩⟩], none, "", false, 1, 0⟩ (by decide)
      _ _ rfl rfl⟩

/-- **C7.** For every grid `w, h ≥ 1`, valid focus index and zoom, a body
positioned exactly at the selected focus-orbit radius along the positive X
axis projects to within one cell of
`(w/2 + round(0.45 * min(w, h) * zoom), h/2)`. -/
theorem C7_focus_radius_lands (w h : ℕ) (hw : 1 ≤ w) (hh : 1 ≤ h)
    (i : ℕ) (hi : i < FOCUS_LEVELS.length) (z : ℚ) (uni : Bool)
    (name : String) (m : BodyMeta) (hm : meta_by_name name = some m) :
    ∀ f sc : ℚ, f = (FOCUS_LEVELS.getD i ("", 0)).2 → sc = scaleOf w h f z →
    ∃ X Y : ℤ,
      planet_op ((w / 2 : ℕ) : ℤ) ((h / 2 : ℕ) : ℤ) sc uni ⟨name, m.id, some ⟨f, 0, 0⟩⟩ =
        some (Op.pix X Y ⟨icon_for m uni, m.color, 20⟩) ∧
      |X - (((w / 2 : ℕ) : ℤ) + rround (((min w h : ℕ) : ℚ) * (45/100) * z))| ≤ 1 ∧
      |Y - ((h / 2 : ℕ) : ℤ)| ≤ 1 := by
  intro f sc hf hsc
  have hf1 : 1 ≤ f := hf ▸ focus_au_ge_one hi
  have hfne : f ≠ 0 := by positivity
  have hmax : max f (1/10) = f := max_eq_left (by linarith)
  have hmul : f * sc = ((min w h : ℕ) : ℚ) * (45/100) * z := by
    rw [hsc, scaleOf, base_scale, hmax]
    calc f * (((min w h : ℕ) : ℚ) * (45/100) / f * z)
        = ((min w h : ℕ) : ℚ) * (45/100) * z * (f / f) := by ring
      _ = ((min w h : ℕ) : ℚ) * (45/100) * z := by rw [div_self hfne, mul_one]
  refine ⟨((w / 2 : ℕ) : ℤ) + rround (f * sc), ((h / 2 : ℕ) : ℤ) - rround ((0 : ℚ) * sc),
    ?_, ?_, ?_⟩
  · simp only [planet_op, Option.some_bind, hm, Option.map_some']
  · rw [hmul]
    simp
  · rw [zero_mul, rround_zero, sub_zero]
    simp

/-- Witness for C7: an 80×24 grid, focus index 0 (Earth), zoom 1, Earth at
(1, 0, 0) — the focus-orbit radius along the positive X axis. -/
theorem C7_focus_radius_lands_witness :
    ∃ m : BodyMeta, meta_by_name "Earth" = some m ∧
      ((1 ≤ 80 ∧ 0 < FOCUS_LEVELS.length) ∧
        ∃ X Y : ℤ,
          planet_op ((80 / 2 : ℕ) : ℤ) ((24 / 2 : ℕ) : ℤ)
              (scaleOf 80 24 ((FOCUS_LEVELS.getD 0 ("", 0)).2) 1) false
              ⟨"Earth", m.id, some ⟨(FOCUS_LEVELS.getD 0 ("", 0)).2, 0, 0⟩⟩ =
            some (Op.pix X Y ⟨icon_for m false, m.color, 20⟩) ∧
          |X - (((80 / 2 : ℕ) : ℤ) + rround (((min 80 24 : ℕ) : ℚ) * (45/100) * 1))| ≤ 1 ∧
          |Y - ((24 / 2 : ℕ) : ℤ)| ≤ 1) :=
  ⟨_, rfl, ⟨by decide, by decide⟩,
    C7_focus_radius_lands 80 24 (by decide) (by decide) 0 (by decide) 1 false
      "Earth" _ rfl _ _ rfl rfl⟩

/-- Witness for C10 at a concrete 3×2 grid (negative and too-large
coordinates are no-ops; shape preserved). -/
theorem C10_put_pixel_total_witness :
    ((1 ≤ 3 ∧ 1 ≤ 2 ∧ rect (emptyGrid 3 2) 3 2) ∧
      put_pixel (emptyGrid 3 2) (-1) 0 ringPixel = emptyGrid 3 2 ∧
      put_pixel (emptyGrid 3 2) 0 2 ringPixel = emptyGrid 3 2 ∧
      rect (put_pixel (emptyGrid 3 2) 1 1 ringPixel) 3 2 ∧
      cellAt (put_pixel (emptyGrid 3 2) 1 1 ringPixel) 0 0 = cellAt (emptyGrid 3 2) 0 0) :=
  ⟨⟨by decide, by decide, rect_emptyGrid 3 2⟩,
   (C10_put_pixel_total (g := emptyGrid 3 2) (w := 3) (h := 2)
      (by decide) (by decide) (rect_emptyGrid 3 2)).1 (-1) 0 ringPixel (by decide),
   (C10_put_pixel_total (g := emptyGrid 3 2) (w := 3) (h := 2)
      (by decide) (by decide) (rect_emptyGrid 3 2)).1 0 2 ringPixel (by decide),
   (C10_put_pixel_total (g := emptyGrid 3 2) (w := 3) (h := 2)
      (by decide) (by decide) (rect_emptyGrid 3 2)).2.1 1 1 ringPixel,
   (C10_put_pixel_total (g := emptyGrid 3 2) (w := 3) (h := 2)
      (by decide) (by decide) (rect_emptyGrid 3 2)).2.2.1 1 1 ringPixel 0 0 (by decide)⟩

/-- **C4.** Ring rasterization writes zero cells whenever the radius (in
cells) is below 1.0; otherwise it takes `⌊clamp(r*6, 64, 720)⌋` angular
samples (so between 64 and 720 of them), each advancing `2π/steps`
radians, and sample `i` writes a priority-1 ring pixel at
`(cx + round(cos t * r), cy - round(sin t * r))` with `t = i·2π/steps`,
through the compositing write `put_pixel`. -/
theorem C4_draw_ring (g : Grid) (cx cy : ℤ) (r : ℝ) :
    (r < 1 → draw_ring g cx cy r = g) ∧
    (1 ≤ r → ∃ steps : ℤ,
      steps = ⌊min (max (r * 6) 64) 720⌋ ∧
      64 ≤ steps ∧ steps ≤ 720 ∧
      (∀ i : ℕ, ((i : ℝ) + 1) * (2 * Real.pi) / (steps : ℝ) -
          (i : ℝ) * (2 * Real.pi) / (steps : ℝ) = 2 * Real.pi / (steps : ℝ)) ∧
      ringPixel.priority = 1 ∧
      draw_ring g cx cy r =
        (List.range steps.toNat).foldl (fun gr i =>
          put_pixel gr
            (cx + rround (Real.cos ((i : ℝ) * (2 * Real.pi) / (steps : ℝ)) * r))
            (cy - rround (Real.sin ((i : ℝ) * (2 * Real.pi) / (steps : ℝ)) * r))
            ringPixel) g) := by
  constructor
  · intro hr
    rw [draw_ring, if_pos hr]
  · intro hr
    refine ⟨⌊min (max (r * 6) 64) 720⌋, rfl, ?_, ?_, ?_, rfl, ?_⟩
    · rw [Int.le_floor]
      push_cast
      exact le_min (le_max_right _ _) (by norm_num)
    · calc ⌊min (max (r * 6) 64) 720⌋ ≤ ⌊(720 : ℝ)⌋ :=
            Int.floor_le_floor (min_le_right _ _)
        _ = 720 := by norm_num
    · intro i
      ring
    · rw [draw_ring, if_neg (not_lt.mpr hr)]

/-- Witness for C4: radius 1/2 draws nothing; radius 2 produces the sampled
ring fold with a step count in [64, 720]. -/
theorem C4_draw_ring_witness :
    ((1 : ℝ)/2 < 1 ∧ draw_ring (emptyGrid 1 1) 0 0 (1/2) = emptyGrid 1 1) ∧
    ((1 : ℝ) ≤ 2 ∧ ∃ steps : ℤ,
      steps = ⌊min (max ((2 : ℝ) * 6) 64) 720⌋ ∧
      64 ≤ steps ∧ steps ≤ 720 ∧
      (∀ i : ℕ, ((i : ℝ) + 1) * (2 * Real.pi) / (steps : ℝ) -
          (i : ℝ) * (2 * Real.pi) / (steps : ℝ) = 2 * Real.pi / (steps : ℝ)) ∧
      ringPixel.priority = 1 ∧
      draw_ring (emptyGrid 1 1) 0 0 2 =
        (List.range steps.toNat).foldl (fun gr i =>
          put_pixel gr
            ((0 : ℤ) + rround (Real.cos ((i : ℝ) * (2 * Real.pi) / (steps : ℝ)) * 2))
            ((0 : ℤ) - rround (Real.sin ((i : ℝ) * (2 * Real.pi) / (steps : ℝ)) * 2))
            ringPixel) (emptyGrid 1 1)) :=
  ⟨⟨one_half_lt_one, (C4_draw_ring (emptyGrid 1 1) 0 0 (1/2)).1 one_half_lt_one⟩,
   one_le_two, (C4_draw_ring (emptyGrid 1 1) 0 0 2).2 one_le_two⟩

/-- **C5.** In every frame, an orbit ring is rasterized for a catalog body
iff that body's nominal orbit radius is ≤ the current focus level's radius
(`ring_op` yields an operation exactly when `r ≤ focus_au`, and that ring
is then among the frame's drawing actions), while a body marker with a
known position and catalog entry is always emitted, with no condition
relating its orbit radius to the focus radius. -/
theorem C5_ring_visibility_marker_unconditional (w h : ℕ) (st : AppState)
    (hidx : st.focus_index < FOCUS_LEVELS.length) :
    ∀ f sc : ℚ, f = (FOCUS_LEVELS.getD st.focus_index ("", 0)).2 →
      sc = scaleOf w h f st.zoom →
      (∀ m ∈ BODIES, ∀ r : ℚ, m.orbit_au = some r →
        ((ring_op ((w / 2 : ℕ) : ℤ) ((h / 2 : ℕ) : ℤ) sc f m).isSome ↔ r ≤ f) ∧
        (r ≤ f →
          Op.ring ((w / 2 : ℕ) : ℤ) ((h / 2 : ℕ) : ℤ) (r * sc) ∈ renderOps w h st)) ∧
      (∀ b ∈ st.bodies, ∀ v m, b.pos_au = some v → meta_by_name b.name = some m →
        (planet_op ((w / 2 : ℕ) : ℤ) ((h / 2 : ℕ) : ℤ) sc st.use_unicode_icons b).isSome ∧
        ∃ X Y : ℤ,
          Op.pix X Y ⟨icon_for m st.use_unicode_icons, m.color, 20⟩ ∈ renderOps w h st) := by
  intro f sc hf hsc
  subst hf
  subst hsc
  constructor
  · intro m hm r hr
    constructor
    · rw [ring_op, hr, Option.some_bind]
      by_cases hle : r ≤ (FOCUS_LEVELS.getD st.focus_index ("", 0)).2
      · rw [if_pos hle]
        simp only [Option.isSome_some, true_iff]
        exact hle
      · rw [if_neg hle]
        simp only [Option.isSome_none, Bool.false_eq_true, false_iff]
        exact hle
    · intro hle
      simp only [renderOps]
      refine List.mem_append.mpr (Or.inl (List.mem_append.mpr (Or.inl ?_)))
      refine List.mem_filterMap.mpr ⟨m, hm, ?_⟩
      rw [ring_op, hr, Option.some_bind, if_pos hle]
  · intro b hb v m hv hm
    constructor
    · rw [planet_op, hv, Option.some_bind, hm, Option.map_some']
      rfl
    · refine ⟨((w / 2 : ℕ) : ℤ) +
          rround (v.x * scaleOf w h ((FOCUS_LEVELS.getD st.focus_index ("", 0)).2) st.zoom),
        ((h / 2 : ℕ) : ℤ) -
          rround (v.y * scaleOf w h ((FOCUS_LEVELS.getD st.focus_index ("", 0)).2) st.zoom), ?_⟩
      simp only [renderOps]
      refine List.mem_append.mpr (Or.inr ?_)
      refine List.mem_filterMap.mpr ⟨b, hb, ?_⟩
      simp only [planet_op, hv, hm, Option.some_bind, Option.map_some']

/-- Witness for C5: 10×10 grid, focus Earth (index 0), zoom 1, Earth at
(1, 0, 0): Earth's ring (radius 1 ≤ focus 1) is drawn and Earth's marker
is emitted. -/
theorem C5_ring_visibility_marker_unconditional_witness :
    ∃ m : BodyMeta, meta_by_name "Earth" = some m ∧
      (Op.ring ((10 / 2 : ℕ) : ℤ) ((10 / 2 : ℕ) : ℤ)
          (1 * scaleOf 10 10 ((FOCUS_LEVELS.getD 0 ("", 0)).2) 1) ∈
        renderOps 10 10 ⟨[⟨"Earth", "399", some ⟨1, 0, 0⟩⟩], none, "", false, 1, 0⟩) ∧
      (∃ X Y : ℤ, Op.pix X Y ⟨icon_for m false, m.color, 20⟩ ∈
        renderOps 10 10 ⟨[⟨"Earth", "399", some ⟨1, 0, 0⟩⟩], none, "", false, 1, 0⟩) :=
  ⟨_, rfl,
    ((C5_ring_visibility_marker_unconditional 10 10
        ⟨[⟨"Earth", "399", some ⟨1, 0, 0⟩⟩], none, "", false, 1, 0⟩ (by decide)
        _ _ rfl rfl).1 _
      (List.mem_cons_of_mem _ (List.mem_cons_of_mem _ (List.mem_cons_of_mem _
        (List.mem_cons_self _ _)))) 1 rfl).2 (le_refl 1),
    ((C5_ring_visibility_marker_unconditional 10 10
        ⟨[⟨"Earth", "399", some ⟨1, 0, 0⟩⟩], none, "", false, 1, 0⟩ (by decide)
        _ _ rfl rfl).2 ⟨"Earth", "399", some ⟨1, 0, 0⟩⟩
      (List.mem_cons_self _ _) ⟨1, 0, 0⟩ _ rfl rfl).2⟩

lemma opWrites_ring_pixel {cx cy : ℤ} {r : ℚ} {wr : W}
    (hwr : wr ∈ opWrites (Op.ring cx cy r)) : wr.p = ringPixel := by
  by_cases hr : (r : ℝ) < 1
  · simp only [opWrites, if_pos hr] at hwr
    exact absurd hwr (List.not_mem_nil wr)
  · simp only [opWrites, if_neg hr, List.mem_map] at hwr
    obtain ⟨i, _, rfl⟩ := hwr
    rfl

lemma pix_mem_pixelsAt {w h : ℕ} {st : AppState} {x y : ℤ} {p : Pixel}
    (hop : Op.pix x y p ∈ renderOps w h st) : p ∈ pixelsAt w h st x y := by
  have hw : (⟨x, y, p⟩ : W) ∈ renderWrites w h st :=
    List.mem_flatMap.mpr ⟨Op.pix x y p, hop, by
      simp only [opWrites, List.mem_singleton]⟩
  exact List.mem_map.mpr ⟨⟨x, y, p⟩, List.mem_filter.mpr ⟨hw, by simp⟩, rfl⟩

/-- **C6.** In the compositing of one frame: the drawing actions are the
rings, then the Sun, then the planet markers in body-list order; the Sun is
placed at the grid center at priority 10 — the highest priority among the
static elements (rings write at priority 1); planets are written at
priority 20; any body write (priority > 1) to an in-bounds cell forces the
final occupant's priority above a ring pixel's, so a body marker always
beats a ring pixel at the same cell; and the final occupant of every
in-bounds cell is the earliest maximum-priority write to it, so among
equal-priority bodies mapping to one cell the draw order decides the tie. -/
theorem C6_compositing_order (w h : ℕ) (st : AppState) :
    ∀ f sc : ℚ, f = (FOCUS_LEVELS.getD st.focus_index ("", 0)).2 →
      sc = scaleOf w h f st.zoom →
      (renderOps w h st =
        BODIES.filterMap (ring_op ((w / 2 : ℕ) : ℤ) ((h / 2 : ℕ) : ℤ) sc f) ++
        sun_ops ((w / 2 : ℕ) : ℤ) ((h / 2 : ℕ) : ℤ) st.use_unicode_icons ++
        st.bodies.filterMap
          (planet_op ((w / 2 : ℕ) : ℤ) ((h / 2 : ℕ) : ℤ) sc st.use_unicode_icons)) ∧
      (∃ sunMeta : BodyMeta, meta_by_name "Sun" = some sunMeta ∧
        sun_ops ((w / 2 : ℕ) : ℤ) ((h / 2 : ℕ) : ℤ) st.use_unicode_icons =
          [Op.pix ((w / 2 : ℕ) : ℤ) ((h / 2 : ℕ) : ℤ)
            ⟨icon_for sunMeta st.use_unicode_icons, sunMeta.color, 10⟩] ∧
        ringPixel.priority = 1 ∧ ringPixel.priority < 10) ∧
      (∀ o ∈ BODIES.filterMap (ring_op ((w / 2 : ℕ) : ℤ) ((h / 2 : ℕ) : ℤ) sc f),
        ∀ wr ∈ opWrites o, wr.p = ringPixel) ∧
      (∀ o ∈ st.bodies.filterMap
          (planet_op ((w / 2 : ℕ) : ℤ) ((h / 2 : ℕ) : ℤ) sc st.use_unicode_icons),
        ∃ X Y ch c, o = Op.pix X Y ⟨ch, c, 20⟩) ∧
      (∀ x y : ℤ, ∀ p : Pixel, 0 ≤ x → x < (w : ℤ) → 0 ≤ y → y < (h : ℤ) →
        Op.pix x y p ∈ renderOps w h st → ringPixel.priority < p.priority →
        ∃ mpx : Pixel, cellAt (render_grid w h st) x y = some mpx ∧
          p.priority ≤ mpx.priority ∧ ringPixel.priority < mpx.priority) ∧
      (∀ x y : ℤ, 0 ≤ x → x < (w : ℤ) → 0 ≤ y → y < (h : ℤ) →
        ∀ mpx : Pixel, cellAt (render_grid w h st) x y = some mpx →
          IsFirstMax (pixelsAt w h st x y) mpx) := by
  intro f sc hf hsc
  subst hf
  subst hsc
  refine ⟨rfl, ⟨_, rfl, rfl, rfl, by decide⟩, ?_, ?_, ?_, ?_⟩
  · intro o ho wr hwr
    obtain ⟨m, _, heq⟩ := List.mem_filterMap.mp ho
    rw [ring_op] at heq
    rcases horb : m.orbit_au with _ | r
    · rw [horb] at heq
      exact absurd heq (by simp)
    · rw [horb, Option.some_bind] at heq
      by_cases hle : r ≤ (FOCUS_LEVELS.getD st.focus_index ("", 0)).2
      · rw [if_pos hle] at heq
        obtain rfl := Option.some_inj.mp heq
        exact opWrites_ring_pixel hwr
      · rw [if_neg hle] at heq
        exact absurd heq (by simp)
  · intro o ho
    obtain ⟨b, _, heq⟩ := List.mem_filterMap.mp ho
    rw [planet_op] at heq
    rcases hpos : b.pos_au with _ | v
    · rw [hpos] at heq
      exact absurd heq (by simp)
    · rw [hpos, Option.some_bind] at heq
      rcases hmeta : meta_by_name b.name with _ | m
      · rw [hmeta] at heq
        exact absurd heq (by simp)
      · rw [hmeta, Option.map_some'] at heq
        obtain rfl := Option.some_inj.mp heq
        exact ⟨_, _, _, _, rfl⟩
  · intro x y p hx0 hxw hy0 hyh hop hp
    obtain ⟨m, hm, hle⟩ := foldl_combine_mem_le (pix_mem_pixelsAt hop)
    refine ⟨m, ?_, hle, lt_of_lt_of_le hp hle⟩
    rw [cellAt_render_grid w h st hx0 hxw hy0 hyh]
    exact hm
  · intro x y hx0 hxw hy0 hyh mpx hcell
    rw [cellAt_render_grid w h st hx0 hxw hy0 hyh] at hcell
    have hne : pixelsAt w h st x y ≠ [] := by
      intro he
      rw [he] at hcell
      exact Option.noConfusion hcell
    obtain ⟨m', hm', hfm⟩ := foldl_combine_none hne
    rw [hm'] at hcell
    obtain rfl := Option.some_inj.mp hcell
    exact hfm

/-- Witness for C6: 10×10 grid, focus Neptune, no fetched bodies — the Sun
write at the center (priority 10) beats any ring pixel there: the final
occupant's priority is ≥ 10 > 1. -/
theorem C6_compositing_order_witness :
    ∃ spx : Pixel,
      Op.pix ((10 / 2 : ℕ) : ℤ) ((10 / 2 : ℕ) : ℤ) spx ∈
        renderOps 10 10 ⟨[], none, "", false, 1, 5⟩ ∧
      spx.priority = 10 ∧
      ∃ mpx : Pixel,
        cellAt (render_grid 10 10 ⟨[], none, "", false, 1, 5⟩) 5 5 = some mpx ∧
        spx.priority ≤ mpx.priority ∧ ringPixel.priority < mpx.priority :=
  ⟨_,
    List.mem_append.mpr (Or.inl (List.mem_append.mpr (Or.inr
      (List.mem_cons_self _ _)))),
    rfl,
    ((C6_compositing_order 10 10 ⟨[], none, "", false, 1, 5⟩ _ _ rfl rfl).2.2.2.2.1
      5 5 _ (by decide) (by decide) (by decide) (by decide)
      (List.mem_append.mpr (Or.inl (List.mem_append.mpr (Or.inr
        (List.mem_cons_self _ _)))))
      (by decide))⟩

/-! ### Updater-cycle lemmas -/

lemma cycle_step_fst_ne {fetch err acc} {nid : String × String} {n : String}
    (hne : n ≠ nid.1) : (cycle_step fetch err acc nid).1 n = acc.1 n := by
  rw [cycle_step]
  rcases fetch nid.2 with _ | v
  · rfl
  · simp only [if_neg hne]

lemma foldl_cycle_fst_not_mem (fetch err) (l : List (String × String)) :
    ∀ acc (n : String), n ∉ l.map Prod.fst →
      ((l.foldl (cycle_step fetch err) acc).1) n = acc.1 n := by
  induction l with
  | nil => intro acc n _; rfl
  | cons nid rest ih =>
    intro acc n hn
    rw [List.map_cons, List.mem_cons] at hn
    push_neg at hn
    rw [List.foldl_cons, ih _ n hn.2, cycle_step_fst_ne hn.1]

lemma foldl_cycle_fst_mem (fetch err) (l : List (String × String)) :
    ∀ acc (n id : String), (l.map Prod.fst).Nodup → (n, id) ∈ l →
      ((l.foldl (cycle_step fetch err) acc).1) n =
        match fetch id with
        | some v => some v
        | none => acc.1 n := by
  induction l with
  | nil =>
    intro acc n id _ hmem
    exact absurd hmem (List.not_mem_nil _)
  | cons nid rest ih =>
    intro acc n id hnd hmem
    rw [List.map_cons, List.nodup_cons] at hnd
    rw [List.foldl_cons]
    rcases List.mem_cons.mp hmem with rfl | hmem
    · have hnotin : n ∉ rest.map Prod.fst := hnd.1
      rw [foldl_cycle_fst_not_mem fetch err rest _ n hnotin, cycle_step]
      rcases fetch id with _ | v
      · rfl
      · simp
    · have hn_in : n ∈ rest.map Prod.fst :=
        List.mem_map.mpr ⟨(n, id), hmem, rfl⟩
      have hne : n ≠ nid.1 := fun hc => hnd.1 (hc ▸ hn_in)
      rw [ih _ n id hnd.2 hmem, cycle_step_fst_ne hne]

/-- The status component of the fetch loop, viewed on its own. -/
def status_step (fetch : String → Option Vec3) (err : String → String)
    (st : String) (nid : String × String) : String :=
  match fetch nid.2 with
  | some _ => st
  | none => "Fetch error (" ++ nid.1 ++ "): " ++ err nid.2

lemma foldl_cycle_snd (fetch err) (l : List (String × String)) :
    ∀ acc, (l.foldl (cycle_step fetch err) acc).2 =
      l.foldl (status_step fetch err) acc.2 := by
  induction l with
  | nil => intro acc; rfl
  | cons nid rest ih =>
    intro acc
    rw [List.foldl_cons, List.foldl_cons, ih]
    congr 1
    rw [cycle_step, status_step]
    rcases fetch nid.2 with _ | v <;> rfl

lemma foldl_status_no_fail (fetch err) (l : List (String × String)) :
    ∀ st0, (∀ nid ∈ l, (fetch nid.2).isSome) →
      l.foldl (status_step fetch err) st0 = st0 := by
  induction l with
  | nil => intro st0 _; rfl
  | cons nid rest ih =>
    intro st0 hall
    rw [List.foldl_cons]
    have h1 := hall nid (List.mem_cons_self _ _)
    rw [status_step]
    rcases hf : fetch nid.2 with _ | v
    · rw [hf] at h1
      exact absurd h1 (by simp)
    · exact ih st0 (fun nid2 h2 => hall nid2 (List.mem_cons_of_mem _ h2))

lemma foldl_status_some_fail (fetch err) (l : List (String × String)) :
    ∀ st0, (∃ nid ∈ l, fetch nid.2 = none) →
      ∃ nid ∈ l, fetch nid.2 = none ∧
        l.foldl (status_step fetch err) st0 =
          "Fetch error (" ++ nid.1 ++ "): " ++ err nid.2 := by
  induction l with
  | nil =>
    intro st0 hex
    obtain ⟨nid, hmem, _⟩ := hex
    exact absurd hmem (List.not_mem_nil _)
  | cons nid rest ih =>
    intro st0 hex
    rw [List.foldl_cons]
    by_cases hrest : ∃ nid2 ∈ rest, fetch nid2.2 = none
    · obtain ⟨nid2, hmem2, hf2, heq⟩ := ih _ hrest
      exact ⟨nid2, List.mem_cons_of_mem _ hmem2, hf2, heq⟩
    · have hhead : fetch nid.2 = none := by
        obtain ⟨nid3, hmem3, hf3⟩ := hex
        rcases List.mem_cons.mp hmem3 with rfl | hmem3
        · exact hf3
        · exact absurd ⟨nid3, hmem3, hf3⟩ hrest
      refine ⟨nid, List.mem_cons_self _ _, hhead, ?_⟩
      have hall : ∀ nid2 ∈ rest, (fetch nid2.2).isSome := by
        intro nid2 h2
        rcases hf2 : fetch nid2.2 with _ | v
        · exact absurd ⟨nid2, h2, hf2⟩ hrest
        · rfl
      rw [foldl_status_no_fail fetch err rest _ hall, status_step, hhead]

lemma snapshot_names_nodup {s : AppState}
    (hnd : (s.bodies.map (fun b => b.name)).Nodup) :
    ((bodies_snapshot s).map Prod.fst).Nodup := by
  have hsub : ((bodies_snapshot s).map Prod.fst).Sublist
      (s.bodies.map (fun b => b.name)) := by
    rw [bodies_snapshot, List.map_map]
    exact List.Sublist.map _ (List.filter_sublist _)
  exact hnd.sublist hsub

lemma mem_bodies_snapshot {s : AppState} {b : BodyState}
    (hb : b ∈ s.bodies) (hid : b.id ≠ "10") :
    (b.name, b.id) ∈ bodies_snapshot s := by
  rw [bodies_snapshot]
  exact List.mem_map.mpr ⟨b, List.mem_filter.mpr ⟨hb, by simpa using hid⟩, rfl⟩

lemma np_of_body {s : AppState} (fetch err) {b : BodyState}
    (hnd : (s.bodies.map (fun b => b.name)).Nodup)
    (hb : b ∈ s.bodies) (hid : b.id ≠ "10") :
    (cycle_results fetch err (bodies_snapshot s)).1 b.name =
      match fetch b.id with
      | some v => some v
      | none => none := by
  rw [cycle_results, foldl_cycle_fst_mem fetch err _ _ b.name b.id
    (snapshot_names_nodup hnd) (mem_bodies_snapshot hb hid)]

/-! ### C8 and C9 -/

/-- The claim as literally stated — the Sun's stored position is the origin
in **every** reachable state — is false: in the initial state of `main`
every body, the Sun included, starts with `pos_au = None`, and the Sun's
position stays `None` until the first updater cycle completes. -/
theorem C8_counterexample :
    ¬ ∀ (u : Bool) (s : AppState), Reachable u s →
        ∀ b ∈ s.bodies, b.id = "10" → b.pos_au = some ⟨0, 0, 0⟩ := by
  intro hall
  have hmem : (⟨"Sun", "10", none⟩ : BodyState) ∈ (initState false).bodies :=
    List.mem_cons_self _ _
  have := hall false (initState false) Reachable.init ⟨"Sun", "10", none⟩ hmem rfl
  exact Option.noConfusion this

/-- **C8 (amended).** The Sun is never requested from the ephemeris service
(its id "10" is filtered out of every cycle's snapshot); an updater cycle
always pins the Sun's position to the origin regardless of the fetch
outcomes, so it is never overwritten by fetched data; and in every
reachable state the Sun's position is either still unset (before the first
completed cycle) or the origin. -/
theorem C8_sun_position (u : Bool) (s : AppState) (hs : Reachable u s) :
    (∀ b ∈ s.bodies, b.id = "10" → b.pos_au = none ∨ b.pos_au = some ⟨0, 0, 0⟩) ∧
    (∀ s' : AppState, ("10" : String) ∉ (bodies_snapshot s').map Prod.snd) ∧
    (∀ fetch err now, ∀ b ∈ (updaterCycle fetch err now s).bodies,
      b.id = "10" → b.pos_au = some ⟨0, 0, 0⟩) := by
  have hsnap : ∀ s' : AppState, ("10" : String) ∉ (bodies_snapshot s').map Prod.snd := by
    intro s' hmem
    rw [bodies_snapshot, List.map_map] at hmem
    obtain ⟨b, hb, hid⟩ := List.mem_map.mp hmem
    have : b.id ≠ "10" := by simpa using (List.mem_filter.mp hb).2
    exact this hid
  have hcycle : ∀ (fetch : String → Option Vec3) err now (s0 : AppState),
      ∀ b ∈ (updaterCycle fetch err now s0).bodies,
        b.id = "10" → b.pos_au = some ⟨0, 0, 0⟩ := by
    intro fetch err now s0 b hb hid
    simp only [updaterCycle, List.mem_map] at hb
    obtain ⟨b0, _, rfl⟩ := hb
    rw [cycle_body] at hid ⊢
    by_cases h0 : b0.id = "10"
    · simp only [if_pos h0]
    · rw [if_neg h0] at hid
      exact absurd hid h0
  refine ⟨?_, hsnap, fun fetch err now => hcycle fetch err now s⟩
  induction hs with
  | init =>
    intro b hb hid
    simp only [initState, List.mem_map] at hb
    obtain ⟨m, _, rfl⟩ := hb
    exact Or.inl rfl
  | update fetch err now _ _ =>
    intro b hb hid
    exact Or.inr (hcycle _ _ _ _ b hb hid)
  | zoomIn _ ih => exact ih
  | zoomOut _ ih => exact ih
  | reset _ ih => exact ih
  | focusIn _ ih => exact ih
  | focusOut _ ih => exact ih

/-- Witness for C8 (amended) at the initial state's Sun entry. -/
theorem C8_sun_position_witness :
    (⟨"Sun", "10", none⟩ : BodyState) ∈ (initState false).bodies ∧
    ((⟨"Sun", "10", none⟩ : BodyState).pos_au = none ∨
      (⟨"Sun", "10", none⟩ : BodyState).pos_au = some ⟨0, 0, 0⟩) :=
  ⟨List.mem_cons_self _ _,
    (C8_sun_position false (initState false) Reachable.init).1
      ⟨"Sun", "10", none⟩ (List.mem_cons_self _ _) rfl⟩

/-- **C9.** A failed fetch for one body in a cycle leaves that body's
last-known position untouched, does not stop the cycle (the whole body
list is still processed by `cycle_body`, and successfully fetched bodies
still get their new positions), does not touch zoom/focus/icon settings,
and only the shared status string records the failure: it is the rendered
message of one failing body, and `"OK"` when nothing failed. -/
theorem C9_fetch_failure_isolated (s : AppState) (fetch : String → Option Vec3)
    (err : String → String) (now : String)
    (hnd : (s.bodies.map (fun b => b.name)).Nodup) :
    ∀ np : String → Option Vec3, np = (cycle_results fetch err (bodies_snapshot s)).1 →
    ((updaterCycle fetch err now s).bodies = s.bodies.map (cycle_body np)) ∧
    (∀ b ∈ s.bodies, b.id ≠ "10" → fetch b.id = none → cycle_body np b = b) ∧
    (∀ b ∈ s.bodies, b.id ≠ "10" → ∀ v, fetch b.id = some v →
      cycle_body np b = { b with pos_au := some v }) ∧
    ((updaterCycle fetch err now s).zoom = s.zoom ∧
     (updaterCycle fetch err now s).focus_index = s.focus_index ∧
     (updaterCycle fetch err now s).use_unicode_icons = s.use_unicode_icons) ∧
    ((∀ nid ∈ bodies_snapshot s, (fetch nid.2).isSome) →
      (updaterCycle fetch err now s).status = "OK") ∧
    ((∃ nid ∈ bodies_snapshot s, fetch nid.2 = none) →
      ∃ nid ∈ bodies_snapshot s, fetch nid.2 = none ∧
        (updaterCycle fetch err now s).status =
          "Fetch error (" ++ nid.1 ++ "): " ++ err nid.2) := by
  intro np hnp
  subst hnp
  refine ⟨rfl, ?_, ?_, ⟨rfl, rfl, rfl⟩, ?_, ?_⟩
  · intro b hb hid hfail
    rw [cycle_body, if_neg hid, np_of_body fetch err hnd hb hid, hfail]
  · intro b hb hid v hsucc
    rw [cycle_body, if_neg hid, np_of_body fetch err hnd hb hid, hsucc]
  · intro hall
    show (cycle_results fetch err (bodies_snapshot s)).2 = "OK"
    rw [cycle_results, foldl_cycle_snd]
    exact foldl_status_no_fail fetch err _ _ hall
  · intro hex
    obtain ⟨nid, hmem, hfail, heq⟩ := foldl_status_some_fail fetch err
      (bodies_snapshot s) "OK" hex
    refine ⟨nid, hmem, hfail, ?_⟩
    show (cycle_results fetch err (bodies_snapshot s)).2 = _
    rw [cycle_results, foldl_cycle_snd]
    exact heq

/-- Witness for C9: two bodies, Earth's fetch succeeds, Mars' fetch fails.
Mars keeps its (absent) position, Earth's new position is applied, and the
status string names a failing body. -/
theorem C9_fetch_failure_isolated_witness :
    ∃ s9 : AppState,
      s9 = ⟨[⟨"Earth", "399", some ⟨1, 0, 0⟩⟩, ⟨"Mars", "499", none⟩],
        none, "OK", false, 1, 5⟩ ∧
      ∃ f9 : String → Option Vec3,
        f9 = (fun id => if id = "399" then some ⟨2, 0, 0⟩ else none) ∧
        ((s9.bodies.map (fun b => b.name)).Nodup ∧
          cycle_body (cycle_results f9 (fun _ => "boom") (bodies_snapshot s9)).1
              ⟨"Mars", "499", none⟩ = ⟨"Mars", "499", none⟩ ∧
          cycle_body (cycle_results f9 (fun _ => "boom") (bodies_snapshot s9)).1
              ⟨"Earth", "399", some ⟨1, 0, 0⟩⟩ = ⟨"Earth", "399", some ⟨2, 0, 0⟩⟩ ∧
          (∃ nid ∈ bodies_snapshot s9, f9 nid.2 = none ∧
            (updaterCycle f9 (fun _ => "boom") "now" s9).status =
              "Fetch error (" ++ nid.1 ++ "): " ++ "boom")) := by
  refine ⟨⟨[⟨"Earth", "399", some ⟨1, 0, 0⟩⟩, ⟨"Mars", "499", none⟩],
      none, "OK", false, 1, 5⟩, rfl,
    (fun id => if id = "399" then some ⟨2, 0, 0⟩ else none), rfl,
    by decide, ?_, ?_, ?_⟩
  · exact (C9_fetch_failure_isolated
      ⟨[⟨"Earth", "399", some ⟨1, 0, 0⟩⟩, ⟨"Mars", "499", none⟩], none, "OK", false, 1, 5⟩
      (fun id => if id = "399" then some ⟨2, 0, 0⟩ else none)
      (fun _ => "boom") "now" (by decide) _ rfl).2.1
      ⟨"Mars", "499", none⟩ (List.mem_cons_of_mem _ (List.mem_cons_self _ _))
      (by decide) rfl
  · exact (C9_fetch_failure_isolated
      ⟨[⟨"Earth", "399", some ⟨1, 0, 0⟩⟩, ⟨"Mars", "499", none⟩], none, "OK", false, 1, 5⟩
      (fun id => if id = "399" then some ⟨2, 0, 0⟩ else none)
      (fun _ => "boom") "now" (by decide) _ rfl).2.2.1
      ⟨"Earth", "399", some ⟨1, 0, 0⟩⟩ (List.mem_cons_self _ _) (by decide)
      ⟨2, 0, 0⟩ rfl
  · exact (C9_fetch_failure_isolated
      ⟨[⟨"Earth", "399", some ⟨1, 0, 0⟩⟩, ⟨"Mars", "499", none⟩], none, "OK", false, 1, 5⟩
      (fun id => if id = "399" then some ⟨2, 0, 0⟩ else none)
      (fun _ => "boom") "now" (by decide) _
      rfl).2.2.2.2.2 ⟨("Mars", "499"),
        List.mem_cons_of_mem _ (List.mem_cons_self _ _), rfl⟩

end Solar
